import Mathlib

/-!
Shallow embedding of `scripts/monitor_act.py` (the ACT monitoring pipeline).

Records are association lists of string fields, mirroring the Python
`Dict[str, str]` rows produced by `csv.DictReader`.  Machine integers are
`Int`/`Nat` (Python integers are unbounded, so no wrap-around modelling is
needed).  Fallible Python operations (`int(...)`, `date(...)`,
`datetime.fromisoformat`) are embedded as `Option`-returning functions, and a
`try/except: pass` around an attempt becomes an `Option` fall-through.
-/

namespace ACT

/-! ### Python string primitives -/

/-- Whitespace test used by `str.strip()` (ASCII whitespace; the dataset's
fields contain no exotic Unicode whitespace). -/
def isWS (c : Char) : Bool := c.isWhitespace

/-- Python `str.strip()` on a character list: drop whitespace from both ends. -/
def trimChars (cs : List Char) : List Char :=
  ((cs.dropWhile isWS).reverse.dropWhile isWS).reverse

/-- Python `s.strip()` for `String`. -/
def pyStrip (s : String) : String := ⟨trimChars s.toList⟩

/-- monitor_act.py `norm(s)`: `(s or "").strip()` (our fields are never
Python `None`, so the `or ""` is the identity). -/
def norm (s : String) : String := pyStrip s

/-- Python `str.upper()` on one character, for the ASCII and Latin-1 letters that
occur in this dataset (Python's full Unicode mapping restricted to that
repertoire; `ß` and `ÿ`, which Python maps outside Latin-1, are left as-is —
they never occur in the Portuguese status tokens this code matches on). -/
def pyUpperChar (c : Char) : Char :=
  if 97 ≤ c.toNat ∧ c.toNat ≤ 122 then Char.ofNat (c.toNat - 32)
  else if 0xE0 ≤ c.toNat ∧ c.toNat ≤ 0xFE ∧ c.toNat ≠ 0xF7 ∧ c.toNat ≠ 0xDF then
    Char.ofNat (c.toNat - 32)
  else c

/-- monitor_act.py `upper(s)`: `norm(s).upper()`. -/
def upper (s : String) : String := ⟨(trimChars s.toList).map pyUpperChar⟩

/-- Python `str.split(sep)` for a one-character separator: splits on every
occurrence, keeping empty segments (`"".split(sep) == [""]`). -/
def splitSep (sep : Char) : List Char → List (List Char)
  | [] => [[]]
  | c :: cs =>
    if c == sep then [] :: splitSep sep cs
    else
      match splitSep sep cs with
      | [] => [[c]]
      | h :: t => (c :: h) :: t

/-! ### Python `int(str)` and `str(int)` -/

/-- Value accumulator over the tail of a Python integer literal: digits with
single underscores allowed between digits (`int("1_0") == 10`). -/
def digitsGo : Nat → List Char → Option Nat
  | acc, [] => some acc
  | acc, c :: cs =>
    if c.isDigit then digitsGo (acc * 10 + (c.toNat - 48)) cs
    else if c == '_' then
      match cs with
      | [] => none
      | c2 :: cs2 => if c2.isDigit then digitsGo (acc * 10 + (c2.toNat - 48)) cs2 else none
    else none

/-- A Python `digitpart`: `digit (["_"] digit)*`. -/
def digitPartVal : List Char → Option Nat
  | [] => none
  | c :: cs => if c.isDigit then digitsGo (c.toNat - 48) cs else none

/-- Python `int(s)` for a decimal string: optional surrounding whitespace,
optional sign, then a digitpart; any other shape raises `ValueError`,
embedded as `none`. -/
def pyIntChars? (cs0 : List Char) : Option Int :=
  match trimChars cs0 with
  | [] => none
  | c :: rest =>
    if c == '+' then
      match digitPartVal rest with
      | none => none
      | some n => some (Int.ofNat n)
    else if c == '-' then
      match digitPartVal rest with
      | none => none
      | some n => some (-(Int.ofNat n))
    else
      match digitPartVal (c :: rest) with
      | none => none
      | some n => some (Int.ofNat n)

def pyInt? (s : String) : Option Int := pyIntChars? s.toList

/-- Fuel-driven digit emitter (structural recursion keeps it
kernel-reducible); `fuel = n + 1` always suffices. -/
def natToCharsAux : Nat → Nat → List Char
  | 0, _ => []
  | fuel + 1, n =>
    if n < 10 then [Char.ofNat (48 + n)]
    else natToCharsAux fuel (n / 10) ++ [Char.ofNat (48 + n % 10)]

/-- Decimal digits of `n`, most significant first (Python `str` for a
nonnegative integer). -/
def natToChars (n : Nat) : List Char := natToCharsAux (n + 1) n

/-- Python `str(i)` for an integer. -/
def intToPyStr (i : Int) : String :=
  if i < 0 then ⟨'-' :: natToChars i.natAbs⟩ else ⟨natToChars i.toNat⟩

/-! ### Calendar dates (`datetime.date`) -/

/-- A constructed `datetime.date`: `datetime.date(y, m, d)` only ever yields
values with `1 ≤ y ≤ 9999`, `1 ≤ m ≤ 12`, `1 ≤ d ≤ daysInMonth`. -/
structure PyDate where
  year : Nat
  month : Nat
  day : Nat
deriving DecidableEq

def leapYear (y : Nat) : Bool := (y % 4 == 0 && y % 100 != 0) || y % 400 == 0

def daysInMonth (y m : Nat) : Nat :=
  if m = 2 then (if leapYear y then 29 else 28)
  else if m = 4 ∨ m = 6 ∨ m = 9 ∨ m = 11 then 30
  else 31

/-- The validity invariant maintained by the `datetime.date` constructor. -/
def validDate (dt : PyDate) : Bool :=
  1 ≤ dt.year && dt.year ≤ 9999 && 1 ≤ dt.month && dt.month ≤ 12 &&
    1 ≤ dt.day && dt.day ≤ daysInMonth dt.year dt.month

/-- Python `datetime.date(yy, mm, dd)`: validates its arguments and raises
`ValueError` (here: `none`) on an out-of-range year, month or day —
never clamping or rolling over. -/
def mkDate (yy mm dd : Int) : Option PyDate :=
  if 1 ≤ yy ∧ yy ≤ 9999 ∧ 1 ≤ mm ∧ mm ≤ 12 ∧ 1 ≤ dd ∧
      dd ≤ (daysInMonth yy.toNat mm.toNat : Int) then
    some ⟨yy.toNat, mm.toNat, dd.toNat⟩
  else none

/-- Days in the years strictly before year `y` (proleptic Gregorian, as in
CPython's `datetime` ordinal arithmetic). -/
def daysBeforeYear (y : Nat) : Nat :=
  365 * (y - 1) + (y - 1) / 4 - (y - 1) / 100 + (y - 1) / 400

/-- The leap-day correction for months past February. -/
def leapDay (y : Nat) : Nat := if leapYear y then 1 else 0

/-- Days in the months of year `y` strictly before month `m`
(CPython `_days_before_month`). -/
def daysBeforeMonth (y m : Nat) : Nat :=
  match m with
  | 1 => 0 | 2 => 31 | 3 => 59 + leapDay y | 4 => 90 + leapDay y | 5 => 120 + leapDay y
  | 6 => 151 + leapDay y | 7 => 181 + leapDay y | 8 => 212 + leapDay y | 9 => 243 + leapDay y
  | 10 => 273 + leapDay y | 11 => 304 + leapDay y | 12 => 334 + leapDay y
  | _ => 0

/-- Python `date.toordinal()`: day number with day 1 = 0001-01-01. -/
def toOrdinal (dt : PyDate) : Nat :=
  daysBeforeYear dt.year + daysBeforeMonth dt.year dt.month + dt.day

/-- Left-pad a digit string with zeros to width `w`. -/
def padZero (w : Nat) (cs : List Char) : List Char :=
  List.replicate (w - cs.length) '0' ++ cs

/-- Python `date.isoformat()`: `YYYY-MM-DD`, zero padded. -/
def isoformat (dt : PyDate) : String :=
  ⟨padZero 4 (natToChars dt.year) ++ '-' :: padZero 2 (natToChars dt.month) ++
    '-' :: padZero 2 (natToChars dt.day)⟩

/-! ### `parse_date_any` (monitor_act.py lines 36-63) -/

/-- One iteration of the `for sep in ["/", "-"]` loop: split on `sep`; if
there are exactly 3 parts and the third has exactly 4 characters, try
`date(int(p2), int(p1), int(p0))`; any failure inside the attempt falls
through (`except Exception: pass`). -/
def tryDMY (cs : List Char) (sep : Char) : Option PyDate :=
  match splitSep sep cs with
  | [p0, p1, p2] =>
    if p2.length = 4 then
      match pyIntChars? p0, pyIntChars? p1, pyIntChars? p2 with
      | some dd, some mm, some yy => mkDate yy mm dd
      | _, _, _ => none
    else none
  | _ => none

/-- The `yyyy-mm-dd` branch: requires `len(raw) >= 10`, `raw[4:5] == "-"`,
`raw[7:8] == "-"`, then `date(int(raw[0:4]), int(raw[5:7]), int(raw[8:10]))`,
falling through on any exception. -/
def tryISO10 (cs : List Char) : Option PyDate :=
  if cs.length ≥ 10 ∧ (cs.drop 4).head? = some '-' ∧ (cs.drop 7).head? = some '-' then
    match pyIntChars? (cs.take 4), pyIntChars? ((cs.drop 5).take 2),
        pyIntChars? ((cs.drop 8).take 2) with
    | some yy, some mm, some dd => mkDate yy mm dd
    | _, _, _ => none
  else none

/-- The `datetime.fromisoformat(raw[:10]).date()` fallback.  Modelled on the
CPython (≤ 3.10) grammar, for which a 10-character prefix can only succeed as
a strict zero-padded `YYYY-MM-DD` date; anything else raises, i.e. `none`. -/
def tryFallbackISO (cs0 : List Char) : Option PyDate :=
  match cs0.take 10 with
  | [y1, y2, y3, y4, h1, m1, m2, h2, d1, d2] =>
    if y1.isDigit && y2.isDigit && y3.isDigit && y4.isDigit && h1 == '-' &&
        m1.isDigit && m2.isDigit && h2 == '-' && d1.isDigit && d2.isDigit then
      mkDate ([y1, y2, y3, y4].foldl (fun a c => a * 10 + (c.toNat - 48)) 0)
        ([m1, m2].foldl (fun a c => a * 10 + (c.toNat - 48)) 0)
        ([d1, d2].foldl (fun a c => a * 10 + (c.toNat - 48)) 0)
    else none
  | _ => none

/-- monitor_act.py `parse_date_any`: strip; `None` on empty; then the four
strategies in strict priority order, each falling through on failure. -/
def parse_date_any (s : String) : Option PyDate :=
  let cs := trimChars s.toList
  if cs = [] then none
  else
    match tryDMY cs '/' with
    | some d => some d
    | none =>
      match tryDMY cs '-' with
      | some d => some d
      | none =>
        match tryISO10 cs with
        | some d => some d
        | none => tryFallbackISO cs

/-- monitor_act.py `days_to(d, today)`: `(d - today).days`, or `None`. -/
def days_to (d : Option PyDate) (today : PyDate) : Option Int :=
  match d with
  | none => none
  | some dt => some ((toOrdinal dt : Int) - (toOrdinal today : Int))

/-- monitor_act.py `risco_categoria`. -/
def risco_categoria (dias : Option Int) : String :=
  match dias with
  | none => "SEM DATA"
  | some d =>
    if d < 0 then "VENCIDO"
    else if d ≤ 30 then "CRÍTICO (≤30d)"
    else if d ≤ 60 then "EXECUÇÃO (≤60d)"
    else if d ≤ 180 then "PREPARAÇÃO (≤180d)"
    else "OK (>180d)"

/-- Does `hay` start with `needle`? -/
def listStarts : List Char → List Char → Bool
  | [], _ => true
  | _ :: _, [] => false
  | a :: as, b :: bs => a == b && listStarts as bs

/-- Python `needle in hay`: contiguous substring test. -/
def containsSub (needle : List Char) : List Char → Bool
  | [] => listStarts needle []
  | c :: t => listStarts needle (c :: t) || containsSub needle t

/-! ### Records (`csv.DictReader` rows) -/

/-- A row: association list from column name to field value, with the
unique-key discipline of a Python dict (lookups read the first binding). -/
abbrev Record := List (String × String)

/-- Python `row[k]` / `row.get(k)` as an `Option`: first binding wins
(bindings are unique in a dict, so this is exact). -/
def getVal : Record → String → Option String
  | [], _ => none
  | p :: t, k => if p.1 == k then some p.2 else getVal t k

/-- Python `k in row`. -/
def hasKey : Record → String → Bool
  | [], _ => false
  | p :: t, k => p.1 == k || hasKey t k

/-- Python `row[k] = v` on a dict: overwrite the existing binding, or append
a new one (dicts preserve insertion order). -/
def setVal (r : Record) (k v : String) : Record :=
  if hasKey r k then r.map (fun p => if p.1 == k then (k, v) else p)
  else r ++ [(k, v)]

/-- monitor_act.py `first(row, keys)`: the first alias present in the row
whose trimmed value is non-blank; `""` if none. -/
def first (r : Record) : List String → String
  | [] => ""
  | k :: ks =>
    match getVal r k with
    | some v => if norm v ≠ "" then v else first r ks
    | none => first r ks

def DATE_COLS_END : List String :=
  ["vigencia_termino", "VIGÊNCIA - TÉRMINO", "vencimento", "Vencimento", "vigencia_fim"]

/-- monitor_act.py `is_concluido`. -/
def is_concluido (r : Record) : Bool :=
  let v := upper (first r ["status_execucao", "status_execução",
    "situacao_execucao", "situação_execucao", "andamento", "execucao", "execução"])
  containsSub "CONCL".toList v.toList || containsSub "FINALIZ".toList v.toList

/-- monitor_act.py `is_arquivado`. -/
def is_arquivado (r : Record) : Bool :=
  let v := upper (first r ["arquivado", "Arquivado", "status_geral", "Status Geral", "status"])
  (v == "SIM" || v == "S" || v == "1" || v == "TRUE") || containsSub "ARQUIV".toList v.toList

/-- monitor_act.py `ensure_publicacao_doe`: back-fill `publicacao_doe` from
`numero_extrato_publicado` when the former is blank and the latter is not. -/
def ensure_publicacao_doe (r : Record) : Record :=
  let extr := norm ((getVal r "numero_extrato_publicado").getD "")
  if norm ((getVal r "publicacao_doe").getD "") = "" ∧ extr ≠ "" then
    setVal r "publicacao_doe" extr
  else r

/-! ### The per-record loop body of `main` (monitor_act.py lines 167-212) -/

/-- The write `r["dias_para_vencer"] = "" if dias is None else str(dias)`. -/
def diasField : Option Int → String
  | none => ""
  | some d => intToPyStr d

/-- The test `dias is not None and 0 <= dias <= n`. -/
def diasLe (dias : Option Int) (n : Int) : Bool :=
  match dias with
  | none => false
  | some d => 0 ≤ d && d ≤ n

/-- The value `"SIM" if (dias is not None and 0 <= dias <= n) else "NÃO"`. -/
def alertaFlag (dias : Option Int) (n : Int) : String :=
  if diasLe dias n then "SIM" else "NÃO"

/-- Lines 168-171: back-fill, then write the normalized execution-status
label (this happens to every row, archived or not). -/
def stage12 (r0 : Record) : Record :=
  let r1 := ensure_publicacao_doe r0
  setVal r1 "status_execucao_padrao" (if is_concluido r1 then "CONCLUÍDO" else "EM ANDAMENTO")

/-- Lines 180-189: derived fields written to a surviving (non-archived)
row. -/
def augmentSurvivor (today : PyDate) (r2 : Record) : Record :=
  let fim := parse_date_any (first r2 DATE_COLS_END)
  let dias := days_to fim today
  let r3 := setVal r2 "dias_para_vencer" (diasField dias)
  let r4 := setVal r3 "categoria_risco" (risco_categoria dias)
  let r5 := setVal r4 "alerta_30" (alertaFlag dias 30)
  let r6 := setVal r5 "alerta_60" (alertaFlag dias 60)
  setVal r6 "alerta_180" (alertaFlag dias 180)

/-- The complete in-place effect of one loop iteration on its row:
archived rows stop after `stage12` (the `continue` at line 178), surviving
rows get the full derived-field block. -/
def augmentRecord (today : PyDate) (r0 : Record) : Record :=
  let r2 := stage12 r0
  if is_arquivado r2 then r2 else augmentSurvivor today r2

def startsWithStr (s p : String) : Bool := p.toList.isPrefixOf s.toList

/-- The per-category counters (lines 158-163). -/
structure CatCounts where
  critico : Nat := 0
  execucao : Nat := 0
  preparacao : Nat := 0
  semdata : Nat := 0
  vencido : Nat := 0
  ok : Nat := 0
deriving DecidableEq

/-- The `if/elif` chain on `cat = r["categoria_risco"]` (lines 192-204). -/
def bumpCats (c : CatCounts) (cat : String) : CatCounts :=
  if startsWithStr cat "CRÍTICO" then { c with critico := c.critico + 1 }
  else if startsWithStr cat "EXECUÇÃO" then { c with execucao := c.execucao + 1 }
  else if startsWithStr cat "PREPARAÇÃO" then { c with preparacao := c.preparacao + 1 }
  else if cat == "SEM DATA" then { c with semdata := c.semdata + 1 }
  else if cat == "VENCIDO" then { c with vencido := c.vencido + 1 }
  else if startsWithStr cat "OK" then { c with ok := c.ok + 1 }
  else c

/-- The mutable state of `main`'s loop: the four queues, the counters, and
the (mutated in place) row list that is re-written to the source CSV. -/
structure RunState where
  prioridades : List Record := []
  alertas30 : List Record := []
  alertas60 : List Record := []
  alertas180 : List Record := []
  cats : CatCounts := {}
  countConcluidos : Nat := 0
  countArquivados : Nat := 0
  outRows : List Record := []
deriving DecidableEq

/-- One iteration of the `for r in rows` loop (lines 167-212). -/
def stepRow (today : PyDate) (st : RunState) (r0 : Record) : RunState :=
  let r2 := stage12 r0
  let st := { st with countConcluidos := st.countConcluidos + (if is_concluido r2 then 1 else 0) }
  if is_arquivado r2 then
    { st with countArquivados := st.countArquivados + 1, outRows := st.outRows ++ [r2] }
  else
    let r := augmentSurvivor today r2
    let cat := (getVal r "categoria_risco").getD ""
    { st with
      cats := bumpCats st.cats cat
      prioridades := st.prioridades ++ [r]
      alertas30 := if (getVal r "alerta_30").getD "" == "SIM" then st.alertas30 ++ [r] else st.alertas30
      alertas60 := if (getVal r "alerta_60").getD "" == "SIM" then st.alertas60 ++ [r] else st.alertas60
      alertas180 := if (getVal r "alerta_180").getD "" == "SIM" then st.alertas180 ++ [r] else st.alertas180
      outRows := st.outRows ++ [r] }

def runPipeline (today : PyDate) (rows : List Record) : RunState :=
  rows.foldl (stepRow today) {}

/-! ### Sorting (monitor_act.py lines 214-225) -/

/-- monitor_act.py `sort_key`: `int` of the (stripped) `dias_para_vencer`
field, with `10**9` as the sentinel when that raises, then the trimmed
identification under either alias (`norm(a) or norm(b)` semantics). -/
def sort_key (r : Record) : Int × String :=
  let d := (pyInt? (norm ((getVal r "dias_para_vencer").getD ""))).getD (10 ^ 9)
  let a := norm ((getVal r "identificacao").getD "")
  (d, if a ≠ "" then a else norm ((getVal r "Identificação").getD ""))

/-- Python string `<=`: lexicographic by code point. -/
def clLeB : List Char → List Char → Bool
  | [], _ => true
  | _ :: _, [] => false
  | a :: as, b :: bs =>
    if a.toNat < b.toNat then true
    else if b.toNat < a.toNat then false
    else clLeB as bs

/-- Comparison `<=` on Python `(int, str)` sort keys (lexicographic on the pair). -/
def keyLeB (a b : Int × String) : Bool :=
  if a.1 < b.1 then true
  else if b.1 < a.1 then false
  else clLeB a.2.toList b.2.toList

/-- The total preorder `list.sort(key=sort_key)` sorts by. -/
def recLe (a b : Record) : Prop := keyLeB (sort_key a) (sort_key b) = true

instance : DecidableRel recLe := fun a b => decEq (keyLeB (sort_key a) (sort_key b)) true

/-- Python `list.sort(key=sort_key)`: a stable sort by `recLe`.  Stable
sorts by the same total preorder agree on output, so the stable
`insertionSort` is an exact model of timsort's result. -/
def pySortK (l : List Record) : List Record := l.insertionSort recLe

/-! ### The run summary (monitor_act.py lines 235-254) -/

/-- The summary object, with exactly the fields the code writes. -/
structure Resumo where
  data_execucao : String
  total_registros_csv : Nat
  ignorados_arquivados : Nat
  total_base_painel : Nat
  concluidos : Nat
  preparacao_ate_180 : Nat
  execucao_ate_60 : Nat
  critico_ate_30 : Nat
  ok : Nat
  sem_data : Nat
  vencido : Nat
  alerta_180 : Nat
  alerta_60 : Nat
  alerta_30 : Nat
deriving DecidableEq

/-- The literal top-level key set of the `resumo` dict built at
monitor_act.py lines 235-254 (the JSON object consumed by the two e-mail
scripts). -/
def resumoKeys : List String :=
  ["data_execucao", "total_registros_csv", "ignorados_arquivados",
   "total_base_painel", "concluidos", "categorias", "alertas"]

/-- Everything `main` hands to the persistence/notification collaborators:
the four sorted queues, the augmented row list, and the summary. -/
structure MainOut where
  prioridades : List Record
  alertas30 : List Record
  alertas60 : List Record
  alertas180 : List Record
  outRows : List Record
  resumo : Resumo
deriving DecidableEq

/-- The in-memory transformation performed by `main` (monitor_act.py lines
129-263), with the file I/O at the boundary stripped away. -/
def runMain (today : PyDate) (rows : List Record) : MainOut :=
  let st := runPipeline today rows
  let pr := pySortK st.prioridades
  let a30 := pySortK st.alertas30
  let a60 := pySortK st.alertas60
  let a180 := pySortK st.alertas180
  { prioridades := pr, alertas30 := a30, alertas60 := a60, alertas180 := a180
    outRows := st.outRows
    resumo :=
      { data_execucao := isoformat today
        total_registros_csv := rows.length
        ignorados_arquivados := st.countArquivados
        total_base_painel := pr.length
        concluidos := st.countConcluidos
        preparacao_ate_180 := st.cats.preparacao
        execucao_ate_60 := st.cats.execucao
        critico_ate_30 := st.cats.critico
        ok := st.cats.ok
        sem_data := st.cats.semdata
        vencido := st.cats.vencido
        alerta_180 := a180.length
        alerta_60 := a60.length
        alerta_30 := a30.length } }

/-- Reading a queue member's days-remaining back out of its
`dias_para_vencer` field, the way `sort_key` does. -/
def recDias (r : Record) : Option Int :=
  pyInt? ((getVal r "dias_para_vencer").getD "")

/-! ### Specification-side vocabulary used by the claim statements -/

/-- Urgency rank of a banded category label: smaller = more urgent
(`CRÍTICO < EXECUÇÃO < PREPARAÇÃO < OK`). -/
def bandRank (s : String) : Nat :=
  if s = "CRÍTICO (≤30d)" then 0
  else if s = "EXECUÇÃO (≤60d)" then 1
  else if s = "PREPARAÇÃO (≤180d)" then 2
  else 3

/-- Shape of a record emitted into the priority queue: every derived field
present with the value computed from one `dias` value, not archived, and —
for a real run reference date — a days-remaining far below the `10**9`
sort sentinel. -/
def Augmented (today : PyDate) (r : Record) : Prop :=
  ∃ dias : Option Int,
    getVal r "dias_para_vencer" = some (diasField dias) ∧
    getVal r "categoria_risco" = some (risco_categoria dias) ∧
    getVal r "alerta_30" = some (alertaFlag dias 30) ∧
    getVal r "alerta_60" = some (alertaFlag dias 60) ∧
    getVal r "alerta_180" = some (alertaFlag dias 180) ∧
    is_arquivado r = false ∧
    (validDate today = true → ∀ d : Int, dias = some d → d.natAbs < 10 ^ 9)

/-- Loop invariant tying the four queues together. -/
def QInv (today : PyDate) (st : RunState) : Prop :=
  (∀ r ∈ st.prioridades, Augmented today r) ∧
  (∀ r ∈ st.alertas30, r ∈ st.prioridades) ∧
  (∀ r ∈ st.alertas60, r ∈ st.prioridades) ∧
  (∀ r ∈ st.alertas180, r ∈ st.prioridades) ∧
  (∀ r ∈ st.prioridades, (r ∈ st.alertas30 ↔ getVal r "alerta_30" = some "SIM")) ∧
  (∀ r ∈ st.prioridades, (r ∈ st.alertas60 ↔ getVal r "alerta_60" = some "SIM")) ∧
  (∀ r ∈ st.prioridades, (r ∈ st.alertas180 ↔ getVal r "alerta_180" = some "SIM"))

/-- Value accumulator for a list of decimal digits. -/
def charsVal (acc : Nat) (cs : List Char) : Nat :=
  cs.foldl (fun a c => a * 10 + (c.toNat - 48)) acc

/-! ### Concrete inputs used by witnesses and counterexamples -/

/-- A concrete run reference date, 2026-02-03. -/
def todayRef : PyDate := ⟨2026, 2, 3⟩

/-- A surviving record whose end date resolves to 30 days after
`todayRef`. -/
def recA : Record := [("identificacao", "ACT-001"), ("vigencia_termino", "05/03/2026")]

/-- An archived record that nevertheless has a perfectly resolvable end
date. -/
def recArch : Record := [("arquivado", "SIM"), ("vigencia_termino", "05/03/2026")]

/-- A record that is both completed and archived. -/
def recBoth : Record := [("status_execucao", "Concluído"), ("arquivado", "SIM")]

/-- A surviving record 40 days from expiry relative to `todayRef`. -/
def rec40 : Record := [("identificacao", "ACT-040"), ("vigencia_termino", "15/03/2026")]

/-- A surviving record with no resolvable date. -/
def recND : Record := [("identificacao", "ACT-ND")]

/-- A record with a legacy extract number and a blank canonical publication
field. -/
def recPub : Record :=
  [("publicacao_doe", "  "), ("numero_extrato_publicado", " DOE 123 "), ("x", "y")]

/-! ## Lemmas -/

/-! ### Association-list updates -/

theorem getVal_mapset (r : Record) (k v k' : String) :
    getVal (r.map (fun p => if p.1 == k then (k, v) else p)) k' =
      if hasKey r k ∧ k' = k then some v else getVal r k' := by
  induction r with
  | nil => simp [getVal, hasKey]
  | cons p t ih =>
    by_cases hpk : p.1 = k
    · by_cases hk' : k' = k
      · subst hk'
        simp [getVal, hasKey, hpk]
      · simp [getVal, hasKey, hpk, hk', Ne.symm hk']
        simpa [hk'] using ih
    · by_cases hpk' : p.1 = k'
      · have hne : ¬(k' = k) := fun h => hpk (h ▸ hpk')
        simp [getVal, hasKey, hpk, hpk', hne]
      · simp [getVal, hasKey, hpk, hpk']
        simpa using ih

theorem getVal_append_single (r : Record) (k v k' : String) (h : hasKey r k = false) :
    getVal (r ++ [(k, v)]) k' = if k' = k then some v else getVal r k' := by
  induction r with
  | nil =>
    by_cases hk' : k' = k <;> simp [getVal, hk', Ne.symm]
  | cons p t ih =>
    simp [hasKey] at h
    obtain ⟨h1, h2⟩ := h
    by_cases hpk' : p.1 = k'
    · have : ¬(k' = k) := fun he => h1 (he ▸ hpk')
      simp [getVal, hpk', this]
    · simp [getVal, hpk', ih h2]

/-- The dict-update law: `row[k] = v` rewrites exactly the binding of `k`
and no other. -/
theorem getVal_setVal (r : Record) (k v k' : String) :
    getVal (setVal r k v) k' = if k' = k then some v else getVal r k' := by
  unfold setVal
  by_cases h : hasKey r k = true
  · rw [if_pos h, getVal_mapset]
    by_cases hk' : k' = k <;> simp [hk', h]
  · rw [if_neg h, getVal_append_single]
    exact Bool.not_eq_true _ ▸ (by simpa using h)

theorem getVal_setVal_same (r : Record) (k v : String) :
    getVal (setVal r k v) k = some v := by
  simp [getVal_setVal]

theorem getVal_setVal_ne (r : Record) (k v k' : String) (h : k' ≠ k) :
    getVal (setVal r k v) k' = getVal r k' := by
  simp [getVal_setVal, h]

/-! ### `strip()` -/

theorem dropWhile_idem (p : α → Bool) (l : List α) :
    (l.dropWhile p).dropWhile p = l.dropWhile p := by
  induction l with
  | nil => rfl
  | cons a t ih =>
    by_cases h : p a = true
    · simp [List.dropWhile_cons, h, ih]
    · simp [List.dropWhile_cons, h]

theorem dropWhile_head?_false (p : α → Bool) (l : List α) (x : α)
    (h : (l.dropWhile p).head? = some x) : p x = false := by
  induction l with
  | nil => simp at h
  | cons a t ih =>
    rw [List.dropWhile_cons] at h
    by_cases hpa : p a = true
    · rw [if_pos hpa] at h; exact ih h
    · rw [if_neg hpa] at h
      simp at h
      cases hb : p a with
      | false => subst h; exact hb
      | true => exact absurd hb hpa

theorem dropWhile_self_of_head (p : α → Bool) (l : List α)
    (h : ∀ x, l.head? = some x → p x = false) : l.dropWhile p = l := by
  cases l with
  | nil => rfl
  | cons a t =>
    have hpa : ¬p a = true := by simp [h a rfl]
    rw [List.dropWhile_cons, if_neg hpa]

theorem dropWhile_getLast? (p : α → Bool) (l : List α) (h : l.dropWhile p ≠ []) :
    (l.dropWhile p).getLast? = l.getLast? := by
  induction l with
  | nil => simp at h
  | cons a t ih =>
    rw [List.dropWhile_cons] at h ⊢
    by_cases hpa : p a = true
    · rw [if_pos hpa] at h ⊢
      cases t with
      | nil => simp at h
      | cons b t' => rw [ih h, List.getLast?_cons_cons]
    · rw [if_neg hpa]

theorem trimChars_idem (cs : List Char) : trimChars (trimChars cs) = trimChars cs := by
  unfold trimChars
  have h1 : (((cs.dropWhile isWS).reverse.dropWhile isWS).reverse).dropWhile isWS =
      ((cs.dropWhile isWS).reverse.dropWhile isWS).reverse := by
    apply dropWhile_self_of_head
    intro x hx
    rw [List.head?_reverse] at hx
    have hAne : (cs.dropWhile isWS).reverse.dropWhile isWS ≠ [] := by
      intro hz; rw [hz] at hx; simp at hx
    rw [dropWhile_getLast? _ _ hAne, List.getLast?_reverse] at hx
    exact dropWhile_head?_false isWS cs x hx
  rw [h1, List.reverse_reverse, dropWhile_idem]

theorem trimChars_of_no_ws (cs : List Char) (h : ∀ c ∈ cs, isWS c = false) :
    trimChars cs = cs := by
  unfold trimChars
  have h1 : cs.dropWhile isWS = cs := by
    apply dropWhile_self_of_head
    intro x hx
    exact h x (by cases cs with | nil => simp at hx | cons a t => simp at hx; simp [hx])
  rw [h1]
  have h2 : cs.reverse.dropWhile isWS = cs.reverse := by
    apply dropWhile_self_of_head
    intro x hx
    refine h x ?_
    have : x ∈ cs.reverse := by
      cases hc : cs.reverse with
      | nil => rw [hc] at hx; simp at hx
      | cons a t => rw [hc] at hx; simp at hx; simp [hc, hx]
    simpa using this
  rw [h2, List.reverse_reverse]

theorem pyStrip_idem (s : String) : pyStrip (pyStrip s) = pyStrip s :=
  congrArg String.mk (trimChars_idem s.toList)

theorem norm_idem (s : String) : norm (norm s) = norm s := pyStrip_idem s

/-! ### Decimal round-trip (`int(str(d)) == d`) -/

theorem digitChar_facts : ∀ k, k < 10 →
    (Char.ofNat (48 + k)).isDigit = true ∧ isWS (Char.ofNat (48 + k)) = false ∧
      ((Char.ofNat (48 + k)) == '+') = false ∧ ((Char.ofNat (48 + k)) == '-') = false ∧
      (Char.ofNat (48 + k)).toNat - 48 = k := by decide

theorem natToCharsAux_props (fuel : Nat) : ∀ n, n < fuel →
    ∀ c ∈ natToCharsAux fuel n,
      c.isDigit = true ∧ isWS c = false ∧ (c == '+') = false ∧ (c == '-') = false := by
  induction fuel with
  | zero => intro n hn; omega
  | succ f ih =>
    intro n hn c hc
    rw [natToCharsAux] at hc
    by_cases h10 : n < 10
    · rw [if_pos h10] at hc
      simp at hc
      subst hc
      exact ⟨(digitChar_facts n h10).1, (digitChar_facts n h10).2.1,
        (digitChar_facts n h10).2.2.1, (digitChar_facts n h10).2.2.2.1⟩
    · rw [if_neg h10] at hc
      simp at hc
      rcases hc with hc | hc
      · exact ih (n / 10) (by omega) c hc
      · subst hc
        refine ⟨(digitChar_facts (n % 10) (by omega)).1, (digitChar_facts (n % 10) (by omega)).2.1,
          (digitChar_facts (n % 10) (by omega)).2.2.1, (digitChar_facts (n % 10) (by omega)).2.2.2.1⟩

theorem natToChars_props (n : Nat) : ∀ c ∈ natToChars n,
    c.isDigit = true ∧ isWS c = false ∧ (c == '+') = false ∧ (c == '-') = false :=
  natToCharsAux_props (n + 1) n (by omega)

theorem natToCharsAux_ne_nil (f n : Nat) : natToCharsAux (f + 1) n ≠ [] := by
  rw [natToCharsAux]
  by_cases h10 : n < 10
  · simp [h10]
  · simp [h10]

theorem natToChars_ne_nil (n : Nat) : natToChars n ≠ [] := natToCharsAux_ne_nil n n

theorem charsVal_append (acc : Nat) (l1 l2 : List Char) :
    charsVal acc (l1 ++ l2) = charsVal (charsVal acc l1) l2 := by
  simp [charsVal, List.foldl_append]

theorem natToCharsAux_val (fuel : Nat) : ∀ n acc, n < fuel →
    charsVal acc (natToCharsAux fuel n) =
      acc * 10 ^ (natToCharsAux fuel n).length + n := by
  induction fuel with
  | zero => intro n acc hn; omega
  | succ f ih =>
    intro n acc hn
    rw [natToCharsAux]
    by_cases h10 : n < 10
    · rw [if_pos h10]
      simp [charsVal, (digitChar_facts n h10).2.2.2.2]
    · rw [if_neg h10]
      rw [charsVal_append, ih (n / 10) acc (by omega)]
      have hlast : charsVal (acc * 10 ^ (natToCharsAux f (n / 10)).length + n / 10)
          [Char.ofNat (48 + n % 10)] =
          (acc * 10 ^ (natToCharsAux f (n / 10)).length + n / 10) * 10 + n % 10 := by
        simp [charsVal, (digitChar_facts (n % 10) (by omega)).2.2.2.2]
      rw [hlast, List.length_append]
      have h1 : (acc * 10 ^ (natToCharsAux f (n / 10)).length + n / 10) * 10 + n % 10 =
          acc * (10 ^ (natToCharsAux f (n / 10)).length * 10) + (n / 10 * 10 + n % 10) := by
        ring
      rw [h1]
      simp only [List.length_singleton, pow_succ]
      congr 1
      omega

theorem charsVal_natToChars (n : Nat) : charsVal 0 (natToChars n) = n := by
  have h := natToCharsAux_val (n + 1) n 0 (by omega)
  simpa [natToChars] using h

theorem digitsGo_digits (cs : List Char) : ∀ acc, (∀ c ∈ cs, c.isDigit = true) →
    digitsGo acc cs = some (charsVal acc cs) := by
  induction cs with
  | nil => intro acc _; simp [digitsGo, charsVal]
  | cons c t ih =>
    intro acc h
    rw [digitsGo.eq_def]
    simp only [if_pos (h c (by simp))]
    rw [ih _ (fun x hx => h x (by simp [hx]))]
    rfl

theorem digitPartVal_of_digits (cs : List Char) (hne : cs ≠ [])
    (h : ∀ c ∈ cs, c.isDigit = true) : digitPartVal cs = some (charsVal 0 cs) := by
  cases cs with
  | nil => exact absurd rfl hne
  | cons c t =>
    rw [digitPartVal, if_pos (h c (by simp))]
    rw [digitsGo_digits t _ (fun x hx => h x (by simp [hx]))]
    simp [charsVal]

theorem pyIntChars?_cons (cs : List Char) (c : Char) (t : List Char)
    (h : trimChars cs = c :: t) :
    pyIntChars? cs =
      if c == '+' then
        match digitPartVal t with
        | none => none
        | some n => some (Int.ofNat n)
      else if c == '-' then
        match digitPartVal t with
        | none => none
        | some n => some (-(Int.ofNat n))
      else
        match digitPartVal (c :: t) with
        | none => none
        | some n => some (Int.ofNat n) := by
  rw [pyIntChars?, h]

theorem pyInt?_intToPyStr (i : Int) : pyInt? (intToPyStr i) = some i := by
  rw [pyInt?, intToPyStr]
  by_cases hneg : i < 0
  · rw [if_pos hneg]
    show pyIntChars? ('-' :: natToChars i.natAbs) = some i
    have htrim : trimChars ('-' :: natToChars i.natAbs) = '-' :: natToChars i.natAbs := by
      apply trimChars_of_no_ws
      intro c hc
      simp at hc
      rcases hc with rfl | hc
      · decide
      · exact (natToChars_props _ c hc).2.1
    have hred : pyIntChars? ('-' :: natToChars i.natAbs) =
        match digitPartVal (natToChars i.natAbs) with
        | none => none
        | some n => some (-(Int.ofNat n)) := by
      rw [pyIntChars?_cons _ _ _ htrim]
      rfl
    rw [hred, digitPartVal_of_digits _ (natToChars_ne_nil _)
      (fun c hc => (natToChars_props _ c hc).1), charsVal_natToChars]
    exact congrArg some (by show -(i.natAbs : Int) = i; omega)
  · rw [if_neg hneg]
    show pyIntChars? (natToChars i.toNat) = some i
    have htrim : trimChars (natToChars i.toNat) = natToChars i.toNat :=
      trimChars_of_no_ws _ (fun c hc => (natToChars_props _ c hc).2.1)
    cases hcs : natToChars i.toNat with
    | nil => exact absurd hcs (natToChars_ne_nil _)
    | cons c t =>
      have hc : c ∈ natToChars i.toNat := by rw [hcs]; simp
      have hprops := natToChars_props _ c hc
      rw [pyIntChars?_cons _ _ _ (hcs ▸ htrim)]
      rw [if_neg (by simp [hprops.2.2.1]), if_neg (by simp [hprops.2.2.2])]
      rw [← hcs, digitPartVal_of_digits _ (natToChars_ne_nil _)
        (fun x hx => (natToChars_props _ x hx).1), charsVal_natToChars]
      exact congrArg some (by show (i.toNat : Int) = i; omega)

theorem pyInt?_empty : pyInt? "" = none := rfl

theorem intToPyStr_ne_empty (i : Int) : intToPyStr i ≠ "" := by
  rw [intToPyStr]
  by_cases hneg : i < 0
  · rw [if_pos hneg]
    intro h
    have h2 := congrArg String.data h
    simp at h2
  · rw [if_neg hneg]
    intro h
    have h2 := congrArg String.data h
    simp at h2
    exact natToChars_ne_nil _ h2

theorem pyInt?_norm (s : String) : pyInt? (norm s) = pyInt? s := by
  rw [pyInt?, pyInt?]
  show pyIntChars? (trimChars s.toList) = pyIntChars? s.toList
  rw [pyIntChars?, pyIntChars?, trimChars_idem]

/-- Reading back the `dias_para_vencer` field written by the augmenter
recovers the `dias` value exactly. -/
theorem recDias_diasField (r : Record) (dias : Option Int)
    (h : getVal r "dias_para_vencer" = some (diasField dias)) : recDias r = dias := by
  rw [recDias, h]
  cases dias with
  | none => rfl
  | some d => exact pyInt?_intToPyStr d

/-! ### Date validity and day-count bounds -/

theorem mkDate_valid {yy mm dd : Int} {dt : PyDate} (h : mkDate yy mm dd = some dt) :
    validDate dt = true := by
  rw [mkDate] at h
  split at h
  · rename_i hcond
    cases h
    simp only [validDate, Bool.and_eq_true, decide_eq_true_eq]
    obtain ⟨h1, h2, h3, h4, h5, h6⟩ := hcond
    refine ⟨⟨⟨⟨⟨?_, ?_⟩, ?_⟩, ?_⟩, ?_⟩, ?_⟩ <;> omega
  · cases h

theorem daysInMonth_le (y m : Nat) : daysInMonth y m ≤ 31 := by
  rw [daysInMonth]
  split_ifs <;> omega

theorem daysBeforeMonth_le (y m : Nat) : daysBeforeMonth y m ≤ 335 := by
  have hld : leapDay y ≤ 1 := by rw [leapDay]; split_ifs <;> omega
  rw [daysBeforeMonth.eq_def]
  split <;> omega

theorem toOrdinal_bounds (dt : PyDate) (h : validDate dt = true) :
    1 ≤ toOrdinal dt ∧ toOrdinal dt ≤ 3700000 := by
  simp only [validDate, Bool.and_eq_true, decide_eq_true_eq] at h
  obtain ⟨⟨⟨⟨⟨h1, h2⟩, h3⟩, h4⟩, h5⟩, h6⟩ := h
  have hm := daysBeforeMonth_le dt.year dt.month
  have hdm := daysInMonth_le dt.year dt.month
  rw [toOrdinal, daysBeforeYear]
  omega

theorem tryDMY_valid {cs : List Char} {sep : Char} {dt : PyDate}
    (h : tryDMY cs sep = some dt) : validDate dt = true := by
  unfold tryDMY at h
  repeat' split at h
  all_goals first | exact mkDate_valid h | cases h

theorem tryISO10_valid {cs : List Char} {dt : PyDate}
    (h : tryISO10 cs = some dt) : validDate dt = true := by
  unfold tryISO10 at h
  repeat' split at h
  all_goals first | exact mkDate_valid h | cases h

theorem tryFallbackISO_valid {cs : List Char} {dt : PyDate}
    (h : tryFallbackISO cs = some dt) : validDate dt = true := by
  unfold tryFallbackISO at h
  repeat' split at h
  all_goals first | exact mkDate_valid h | cases h

theorem parse_date_any_valid {s : String} {dt : PyDate}
    (h : parse_date_any s = some dt) : validDate dt = true := by
  simp only [parse_date_any] at h
  split at h
  · cases h
  · split at h
    next d heq => cases h; exact tryDMY_valid heq
    next heq =>
      split at h
      next d heq2 => cases h; exact tryDMY_valid heq2
      next heq2 =>
        split at h
        next d heq3 => cases h; exact tryISO10_valid heq3
        next heq3 => exact tryFallbackISO_valid h

/-- A surviving day-count is microscopic next to the `10**9` sentinel. -/
theorem days_to_natAbs {s : String} {today d : PyDate}
    (hp : parse_date_any s = some d) (ht : validDate today = true) :
    ((toOrdinal d : Int) - (toOrdinal today : Int)).natAbs < 10 ^ 9 := by
  have h1 := toOrdinal_bounds d (parse_date_any_valid hp)
  have h2 := toOrdinal_bounds today ht
  omega

/-! ### Frame lemmas: which fields each stage touches -/

theorem first_congr (r1 r2 : Record) (keys : List String)
    (h : ∀ k ∈ keys, getVal r1 k = getVal r2 k) : first r1 keys = first r2 keys := by
  induction keys with
  | nil => rfl
  | cons k ks ih =>
    simp only [first]
    rw [h k (by simp)]
    cases getVal r2 k with
    | none => exact ih (fun x hx => h x (by simp [hx]))
    | some v =>
      by_cases hv : norm v ≠ "" <;> simp [hv]
      all_goals exact ih (fun x hx => h x (by simp [hx]))

theorem getVal_ensure_ne (r : Record) (k : String) (hk : k ≠ "publicacao_doe") :
    getVal (ensure_publicacao_doe r) k = getVal r k := by
  simp only [ensure_publicacao_doe]
  split
  · exact getVal_setVal_ne _ _ _ _ hk
  · rfl

theorem getVal_stage12_ne (r : Record) (k : String) (h1 : k ≠ "publicacao_doe")
    (h2 : k ≠ "status_execucao_padrao") : getVal (stage12 r) k = getVal r k := by
  simp only [stage12]
  rw [getVal_setVal_ne _ _ _ _ h2]
  exact getVal_ensure_ne r k h1

theorem is_arquivado_stage12 (r : Record) : is_arquivado (stage12 r) = is_arquivado r := by
  have h : first (stage12 r) ["arquivado", "Arquivado", "status_geral", "Status Geral", "status"]
      = first r ["arquivado", "Arquivado", "status_geral", "Status Geral", "status"] := by
    apply first_congr
    intro k hk
    simp at hk
    rcases hk with rfl | rfl | rfl | rfl | rfl <;>
      exact getVal_stage12_ne _ _ (by decide) (by decide)
  simp only [is_arquivado, h]

theorem is_concluido_stage12 (r : Record) : is_concluido (stage12 r) = is_concluido r := by
  have h : first (stage12 r) ["status_execucao", "status_execução",
      "situacao_execucao", "situação_execucao", "andamento", "execucao", "execução"]
      = first r ["status_execucao", "status_execução",
      "situacao_execucao", "situação_execucao", "andamento", "execucao", "execução"] := by
    apply first_congr
    intro k hk
    simp at hk
    rcases hk with rfl | rfl | rfl | rfl | rfl | rfl | rfl <;>
      exact getVal_stage12_ne _ _ (by decide) (by decide)
  simp only [is_concluido, h]

theorem getVal_augmentSurvivor_ne (today : PyDate) (r2 : Record) (k : String)
    (h1 : k ≠ "dias_para_vencer") (h2 : k ≠ "categoria_risco") (h3 : k ≠ "alerta_30")
    (h4 : k ≠ "alerta_60") (h5 : k ≠ "alerta_180") :
    getVal (augmentSurvivor today r2) k = getVal r2 k := by
  simp only [augmentSurvivor]
  rw [getVal_setVal_ne _ _ _ _ h5, getVal_setVal_ne _ _ _ _ h4, getVal_setVal_ne _ _ _ _ h3,
    getVal_setVal_ne _ _ _ _ h2, getVal_setVal_ne _ _ _ _ h1]

theorem is_arquivado_augmentSurvivor (today : PyDate) (r2 : Record) :
    is_arquivado (augmentSurvivor today r2) = is_arquivado r2 := by
  have h : first (augmentSurvivor today r2)
      ["arquivado", "Arquivado", "status_geral", "Status Geral", "status"]
      = first r2 ["arquivado", "Arquivado", "status_geral", "Status Geral", "status"] := by
    apply first_congr
    intro k hk
    simp at hk
    rcases hk with rfl | rfl | rfl | rfl | rfl <;>
      exact getVal_augmentSurvivor_ne _ _ _ (by decide) (by decide) (by decide) (by decide)
        (by decide)
  simp only [is_arquivado, h]

theorem augmentSurvivor_fields (today : PyDate) (r2 : Record) :
    getVal (augmentSurvivor today r2) "dias_para_vencer" =
      some (diasField (days_to (parse_date_any (first r2 DATE_COLS_END)) today)) ∧
    getVal (augmentSurvivor today r2) "categoria_risco" =
      some (risco_categoria (days_to (parse_date_any (first r2 DATE_COLS_END)) today)) ∧
    getVal (augmentSurvivor today r2) "alerta_30" =
      some (alertaFlag (days_to (parse_date_any (first r2 DATE_COLS_END)) today) 30) ∧
    getVal (augmentSurvivor today r2) "alerta_60" =
      some (alertaFlag (days_to (parse_date_any (first r2 DATE_COLS_END)) today) 60) ∧
    getVal (augmentSurvivor today r2) "alerta_180" =
      some (alertaFlag (days_to (parse_date_any (first r2 DATE_COLS_END)) today) 180) := by
  simp only [augmentSurvivor]
  refine ⟨?_, ?_, ?_, ?_, ?_⟩
  · rw [getVal_setVal_ne _ _ _ _ (by decide), getVal_setVal_ne _ _ _ _ (by decide),
      getVal_setVal_ne _ _ _ _ (by decide), getVal_setVal_ne _ _ _ _ (by decide),
      getVal_setVal_same]
  · rw [getVal_setVal_ne _ _ _ _ (by decide), getVal_setVal_ne _ _ _ _ (by decide),
      getVal_setVal_ne _ _ _ _ (by decide), getVal_setVal_same]
  · rw [getVal_setVal_ne _ _ _ _ (by decide), getVal_setVal_ne _ _ _ _ (by decide),
      getVal_setVal_same]
  · rw [getVal_setVal_ne _ _ _ _ (by decide), getVal_setVal_same]
  · rw [getVal_setVal_same]

theorem augmentSurvivor_Augmented (today : PyDate) (r2 : Record)
    (harq : is_arquivado r2 = false) : Augmented today (augmentSurvivor today r2) := by
  obtain ⟨f1, f2, f3, f4, f5⟩ := augmentSurvivor_fields today r2
  refine ⟨days_to (parse_date_any (first r2 DATE_COLS_END)) today, f1, f2, f3, f4, f5, ?_, ?_⟩
  · rw [is_arquivado_augmentSurvivor]; exact harq
  · intro hv d hd
    cases hp : parse_date_any (first r2 DATE_COLS_END) with
    | none => rw [hp] at hd; simp [days_to] at hd
    | some f =>
      rw [hp] at hd
      simp only [days_to, Option.some.injEq] at hd
      subst hd
      exact days_to_natAbs hp hv

/-! ### Loop lemmas -/

theorem foldl_inv {σ α : Type} (step : σ → α → σ) (Inv : σ → Prop)
    (h : ∀ s a, Inv s → Inv (step s a)) :
    ∀ (l : List α) (s : σ), Inv s → Inv (l.foldl step s) := by
  intro l
  induction l with
  | nil => intro s hs; exact hs
  | cons a t ih => intro s hs; exact ih _ (h s a hs)

theorem stepRow_outRows (today : PyDate) (st : RunState) (r0 : Record) :
    (stepRow today st r0).outRows = st.outRows ++ [augmentRecord today r0] := by
  simp only [stepRow, augmentRecord]
  by_cases h : is_arquivado (stage12 r0) = true
  · rw [if_pos h, if_pos h]
  · rw [if_neg h, if_neg h]

theorem stepRow_countConcluidos (today : PyDate) (st : RunState) (r0 : Record) :
    (stepRow today st r0).countConcluidos =
      st.countConcluidos + (if is_concluido r0 then 1 else 0) := by
  simp only [stepRow]
  by_cases h : is_arquivado (stage12 r0) = true
  · rw [if_pos h]
    simp [is_concluido_stage12]
  · rw [if_neg h]
    simp [is_concluido_stage12]

theorem stepRow_countArquivados (today : PyDate) (st : RunState) (r0 : Record) :
    (stepRow today st r0).countArquivados =
      st.countArquivados + (if is_arquivado r0 then 1 else 0) := by
  simp only [stepRow]
  by_cases h : is_arquivado (stage12 r0) = true
  · rw [if_pos h]
    rw [is_arquivado_stage12] at h
    simp [h]
  · rw [if_neg h]
    rw [is_arquivado_stage12] at h
    simp [h]

theorem foldl_countConcluidos (today : PyDate) (rows : List Record) : ∀ st : RunState,
    ((rows.foldl (stepRow today) st).countConcluidos =
      st.countConcluidos + rows.countP (fun r => is_concluido r)) := by
  induction rows with
  | nil => intro st; simp
  | cons a t ih =>
    intro st
    rw [List.foldl_cons, ih, stepRow_countConcluidos, List.countP_cons]
    by_cases h : is_concluido a <;> simp [h]
    all_goals omega

theorem foldl_countArquivados (today : PyDate) (rows : List Record) : ∀ st : RunState,
    ((rows.foldl (stepRow today) st).countArquivados =
      st.countArquivados + rows.countP (fun r => is_arquivado r)) := by
  induction rows with
  | nil => intro st; simp
  | cons a t ih =>
    intro st
    rw [List.foldl_cons, ih, stepRow_countArquivados, List.countP_cons]
    by_cases h : is_arquivado a <;> simp [h]
    all_goals omega

/-- How appending one survivor to an alert queue preserves the
subset/characterization pair. -/
theorem alert_inv_step (key : String) (old prio : List Record) (r : Record) (cond : Bool)
    (hcond : cond = true ↔ getVal r key = some "SIM")
    (hsub : ∀ x ∈ old, x ∈ prio)
    (hiff : ∀ x ∈ prio, (x ∈ old ↔ getVal x key = some "SIM")) :
    (∀ x ∈ (if cond then old ++ [r] else old), x ∈ prio ++ [r]) ∧
    (∀ x ∈ prio ++ [r], (x ∈ (if cond then old ++ [r] else old) ↔
      getVal x key = some "SIM")) := by
  by_cases hc : cond = true
  · simp only [hc, if_true]
    constructor
    · intro x hx
      rcases List.mem_append.mp hx with hx | hx
      · exact List.mem_append.mpr (Or.inl (hsub x hx))
      · exact List.mem_append.mpr (Or.inr hx)
    · intro x hx
      rcases List.mem_append.mp hx with hx | hx
      · constructor
        · intro hm
          rcases List.mem_append.mp hm with hm | hm
          · exact (hiff x hx).mp hm
          · simp at hm; subst hm; exact hcond.mp hc
        · intro hf
          exact List.mem_append.mpr (Or.inl ((hiff x hx).mpr hf))
      · simp at hx; subst hx
        constructor
        · intro _; exact hcond.mp hc
        · intro _; exact List.mem_append.mpr (Or.inr (by simp))
  · rw [if_neg hc]
    constructor
    · intro x hx
      exact List.mem_append.mpr (Or.inl (hsub x hx))
    · intro x hx
      rcases List.mem_append.mp hx with hx | hx
      · exact hiff x hx
      · simp at hx; subst hx
        constructor
        · intro hm
          exact absurd (hcond.mpr ((hiff x (hsub x hm)).mp hm)) hc
        · intro hf
          exact absurd (hcond.mpr hf) hc

theorem stepRow_prioridades_arch (today : PyDate) (st : RunState) (r0 : Record)
    (h : is_arquivado (stage12 r0) = true) :
    (stepRow today st r0).prioridades = st.prioridades := by
  simp only [stepRow]
  rw [if_pos h]

theorem stepRow_alertas30_arch (today : PyDate) (st : RunState) (r0 : Record)
    (h : is_arquivado (stage12 r0) = true) :
    (stepRow today st r0).alertas30 = st.alertas30 := by
  simp only [stepRow]
  rw [if_pos h]

theorem stepRow_alertas60_arch (today : PyDate) (st : RunState) (r0 : Record)
    (h : is_arquivado (stage12 r0) = true) :
    (stepRow today st r0).alertas60 = st.alertas60 := by
  simp only [stepRow]
  rw [if_pos h]

theorem stepRow_alertas180_arch (today : PyDate) (st : RunState) (r0 : Record)
    (h : is_arquivado (stage12 r0) = true) :
    (stepRow today st r0).alertas180 = st.alertas180 := by
  simp only [stepRow]
  rw [if_pos h]

theorem stepRow_prioridades_surv (today : PyDate) (st : RunState) (r0 : Record)
    (h : ¬is_arquivado (stage12 r0) = true) :
    (stepRow today st r0).prioridades =
      st.prioridades ++ [augmentSurvivor today (stage12 r0)] := by
  simp only [stepRow]
  rw [if_neg h]

theorem stepRow_alertas30_surv (today : PyDate) (st : RunState) (r0 : Record)
    (h : ¬is_arquivado (stage12 r0) = true) :
    (stepRow today st r0).alertas30 =
      (if (getVal (augmentSurvivor today (stage12 r0)) "alerta_30").getD "" == "SIM"
        then st.alertas30 ++ [augmentSurvivor today (stage12 r0)] else st.alertas30) := by
  simp only [stepRow]
  rw [if_neg h]

theorem stepRow_alertas60_surv (today : PyDate) (st : RunState) (r0 : Record)
    (h : ¬is_arquivado (stage12 r0) = true) :
    (stepRow today st r0).alertas60 =
      (if (getVal (augmentSurvivor today (stage12 r0)) "alerta_60").getD "" == "SIM"
        then st.alertas60 ++ [augmentSurvivor today (stage12 r0)] else st.alertas60) := by
  simp only [stepRow]
  rw [if_neg h]

theorem stepRow_alertas180_surv (today : PyDate) (st : RunState) (r0 : Record)
    (h : ¬is_arquivado (stage12 r0) = true) :
    (stepRow today st r0).alertas180 =
      (if (getVal (augmentSurvivor today (stage12 r0)) "alerta_180").getD "" == "SIM"
        then st.alertas180 ++ [augmentSurvivor today (stage12 r0)] else st.alertas180) := by
  simp only [stepRow]
  rw [if_neg h]

theorem stepRow_QInv (today : PyDate) (st : RunState) (r0 : Record)
    (h : QInv today st) : QInv today (stepRow today st r0) := by
  obtain ⟨hA, h30p, h60p, h180p, h30, h60, h180⟩ := h
  by_cases harq : is_arquivado (stage12 r0) = true
  · unfold QInv
    rw [stepRow_prioridades_arch today st r0 harq, stepRow_alertas30_arch today st r0 harq,
      stepRow_alertas60_arch today st r0 harq, stepRow_alertas180_arch today st r0 harq]
    exact ⟨hA, h30p, h60p, h180p, h30, h60, h180⟩
  · unfold QInv
    rw [stepRow_prioridades_surv today st r0 harq, stepRow_alertas30_surv today st r0 harq,
      stepRow_alertas60_surv today st r0 harq, stepRow_alertas180_surv today st r0 harq]
    have hAug : Augmented today (augmentSurvivor today (stage12 r0)) :=
      augmentSurvivor_Augmented today (stage12 r0) (by simpa using harq)
    obtain ⟨dias, f1, f2, f3, f4, f5, f6, f7⟩ := hAug
    have hflag : ∀ (key v : String),
        getVal (augmentSurvivor today (stage12 r0)) key = some v →
        ((((getVal (augmentSurvivor today (stage12 r0)) key).getD "" == "SIM") = true) ↔
          getVal (augmentSurvivor today (stage12 r0)) key = some "SIM") := by
      intro key v hv
      rw [hv]
      simp
    have h30s := alert_inv_step "alerta_30" st.alertas30 st.prioridades
      (augmentSurvivor today (stage12 r0)) _ (hflag "alerta_30" _ f3) h30p h30
    have h60s := alert_inv_step "alerta_60" st.alertas60 st.prioridades
      (augmentSurvivor today (stage12 r0)) _ (hflag "alerta_60" _ f4) h60p h60
    have h180s := alert_inv_step "alerta_180" st.alertas180 st.prioridades
      (augmentSurvivor today (stage12 r0)) _ (hflag "alerta_180" _ f5) h180p h180
    refine ⟨?_, h30s.1, h60s.1, h180s.1, h30s.2, h60s.2, h180s.2⟩
    intro x hx
    rcases List.mem_append.mp hx with hx | hx
    · exact hA x hx
    · simp at hx; subst hx
      exact ⟨dias, f1, f2, f3, f4, f5, f6, f7⟩

theorem runPipeline_QInv (today : PyDate) (rows : List Record) :
    QInv today (runPipeline today rows) := by
  rw [runPipeline]
  refine foldl_inv (stepRow today) (QInv today)
    (fun s a hs => stepRow_QInv today s a hs) rows {} ?_
  refine ⟨?_, ?_, ?_, ?_, ?_, ?_, ?_⟩ <;> intro x hx <;> simp at hx

/-! ### Sorting -/

theorem clLeB_total (as bs : List Char) : clLeB as bs = true ∨ clLeB bs as = true := by
  induction as generalizing bs with
  | nil => left; rfl
  | cons a as ih =>
    cases bs with
    | nil => right; rfl
    | cons b bs =>
      by_cases h1 : a.toNat < b.toNat
      · left; simp [clLeB, h1]
      · by_cases h2 : b.toNat < a.toNat
        · right; simp [clLeB, h2]
        · rcases ih bs with h | h
          · left; simp [clLeB, h1, h2]; simpa using h
          · right; simp [clLeB, h1, h2]; simpa using h

theorem clLeB_trans (as : List Char) : ∀ bs cs : List Char,
    clLeB as bs = true → clLeB bs cs = true → clLeB as cs = true := by
  induction as with
  | nil => intro bs cs _ _; rfl
  | cons a as ih =>
    intro bs cs h1 h2
    cases bs with
    | nil => simp [clLeB] at h1
    | cons b bs =>
      cases cs with
      | nil => simp [clLeB] at h2
      | cons c cs =>
        simp only [clLeB] at h1 h2 ⊢
        split_ifs at h1 h2 ⊢ <;>
          first
          | rfl
          | (exfalso; omega)
          | (exact absurd h1 (by decide))
          | (exact absurd h2 (by decide))
          | (exact ih bs cs h1 h2)

theorem keyLeB_total (a b : Int × String) : keyLeB a b = true ∨ keyLeB b a = true := by
  simp only [keyLeB]
  by_cases h1 : a.1 < b.1
  · left; simp [h1]
  · by_cases h2 : b.1 < a.1
    · right; simp [h2]
    · rcases clLeB_total a.2.toList b.2.toList with h | h
      · left; simp [h1, h2]; simpa using h
      · right; simp [h1, h2]; simpa using h

theorem keyLeB_trans (a b c : Int × String) (h1 : keyLeB a b = true)
    (h2 : keyLeB b c = true) : keyLeB a c = true := by
  simp only [keyLeB] at h1 h2 ⊢
  split_ifs at h1 h2 ⊢ <;>
    first
    | rfl
    | (exfalso; omega)
    | (exact absurd h1 (by decide))
    | (exact absurd h2 (by decide))
    | (exact clLeB_trans _ _ _ h1 h2)

instance : IsTotal Record recLe :=
  ⟨fun a b => keyLeB_total (sort_key a) (sort_key b)⟩

instance : IsTrans Record recLe :=
  ⟨fun _ _ _ h1 h2 => keyLeB_trans _ _ _ h1 h2⟩

theorem pySortK_sorted (l : List Record) : List.Sorted recLe (pySortK l) :=
  List.sorted_insertionSort recLe l

theorem mem_pySortK {l : List Record} {x : Record} : x ∈ pySortK l ↔ x ∈ l :=
  List.mem_insertionSort recLe

theorem diasField_empty_iff (dias : Option Int) : diasField dias = "" ↔ dias = none := by
  cases dias with
  | none => simp [diasField]
  | some d =>
    simp only [diasField]
    constructor
    · intro h; exact absurd h (intToPyStr_ne_empty d)
    · intro h; cases h

/-- The first component of `sort_key` on an augmented record: the stored
day-count, or the `10**9` sentinel when there is none. -/
theorem sort_key_fst (r : Record) (dias : Option Int)
    (h : getVal r "dias_para_vencer" = some (diasField dias)) :
    (sort_key r).1 = (match dias with | none => (10 : Int) ^ 9 | some d => d) := by
  simp only [sort_key, h, Option.getD_some]
  cases dias with
  | none => rfl
  | some d =>
    rw [show diasField (some d) = intToPyStr d from rfl, pyInt?_norm, pyInt?_intToPyStr]
    rfl

/-! ### `runMain` projections -/

theorem runMain_prioridades (today : PyDate) (rows : List Record) :
    (runMain today rows).prioridades = pySortK (runPipeline today rows).prioridades := rfl

theorem runMain_alertas30 (today : PyDate) (rows : List Record) :
    (runMain today rows).alertas30 = pySortK (runPipeline today rows).alertas30 := rfl

theorem runMain_alertas60 (today : PyDate) (rows : List Record) :
    (runMain today rows).alertas60 = pySortK (runPipeline today rows).alertas60 := rfl

theorem runMain_alertas180 (today : PyDate) (rows : List Record) :
    (runMain today rows).alertas180 = pySortK (runPipeline today rows).alertas180 := rfl

theorem runMain_concluidos (today : PyDate) (rows : List Record) :
    (runMain today rows).resumo.concluidos = (runPipeline today rows).countConcluidos := rfl

theorem runMain_arquivados (today : PyDate) (rows : List Record) :
    (runMain today rows).resumo.ignorados_arquivados =
      (runPipeline today rows).countArquivados := rfl

/-- The alert flag reads back as `"SIM"` exactly on a present, in-window
day-count. -/
theorem alertaFlag_SIM_iff (dias : Option Int) (n : Int) :
    alertaFlag dias n = "SIM" ↔ ∃ d, dias = some d ∧ 0 ≤ d ∧ d ≤ n := by
  cases dias with
  | none => simp [alertaFlag, diasLe]
  | some d =>
    by_cases h : 0 ≤ d ∧ d ≤ n
    · simp only [alertaFlag, diasLe, Bool.and_eq_true, decide_eq_true_eq]
      rw [if_pos h]
      simp [h]
    · simp only [alertaFlag, diasLe, Bool.and_eq_true, decide_eq_true_eq]
      rw [if_neg h]
      simp
      omega

/-! ## Claims -/

/-- C4: date parsing of `"05/03/2026"` and `"2026-03-05"` both yield the
calendar date 2026-03-05 (re-formatted to ISO, `"2026-03-05"`), while the
invalid day-of-month input `"31/02/2026"` yields NONE rather than a clamped
or rolled-over date. -/
theorem C4_date_parsing :
    parse_date_any "05/03/2026" = some ⟨2026, 3, 5⟩ ∧
    parse_date_any "2026-03-05" = some ⟨2026, 3, 5⟩ ∧
    isoformat ⟨2026, 3, 5⟩ = "2026-03-05" ∧
    parse_date_any "31/02/2026" = none :=
  ⟨by decide, by decide, by decide, by decide⟩

/-- C5: the date normalizer is total: it trims its input (parsing is
invariant under pre-trimming), returns NONE on input that trims to empty,
tries the layout strategies in strict priority order with per-strategy
fall-through, and returns NONE when every strategy fails.  (It never
raises: the embedding is a total function into `Option`, exactly because
every `try/except` in the source converts exceptions into fall-through.) -/
theorem C5_parse_total (s : String) :
    (parse_date_any s = parse_date_any (norm s)) ∧
    (norm s = "" → parse_date_any s = none) ∧
    (∀ d, tryDMY (trimChars s.toList) '/' = some d → parse_date_any s = some d) ∧
    (∀ d, tryDMY (trimChars s.toList) '/' = none →
      tryDMY (trimChars s.toList) '-' = some d → parse_date_any s = some d) ∧
    (∀ d, tryDMY (trimChars s.toList) '/' = none → tryDMY (trimChars s.toList) '-' = none →
      tryISO10 (trimChars s.toList) = some d → parse_date_any s = some d) ∧
    (tryDMY (trimChars s.toList) '/' = none → tryDMY (trimChars s.toList) '-' = none →
      tryISO10 (trimChars s.toList) = none → tryFallbackISO (trimChars s.toList) = none →
      parse_date_any s = none) := by
  have hts : trimChars ((norm s).toList) = trimChars s.toList := trimChars_idem s.toList
  refine ⟨?_, ?_, ?_, ?_, ?_, ?_⟩
  · show parse_date_any s = parse_date_any (norm s)
    conv_rhs => rw [parse_date_any]
    rw [hts]
    rw [parse_date_any]
  · intro h
    have hempty : trimChars s.toList = [] := by
      have := congrArg String.toList h
      simpa using this
    rw [parse_date_any, hempty]
    rfl
  · intro d h1
    by_cases hcs : trimChars s.toList = []
    · rw [hcs, show tryDMY [] '/' = none from by decide] at h1
      exact Option.noConfusion h1
    · rw [parse_date_any]
      rw [if_neg hcs, h1]
  · intro d h1 h2
    by_cases hcs : trimChars s.toList = []
    · rw [hcs, show tryDMY [] '-' = none from by decide] at h2
      exact Option.noConfusion h2
    · rw [parse_date_any]
      rw [if_neg hcs, h1, h2]
  · intro d h1 h2 h3
    by_cases hcs : trimChars s.toList = []
    · rw [hcs, show tryISO10 [] = none from by decide] at h3
      exact Option.noConfusion h3
    · rw [parse_date_any]
      rw [if_neg hcs, h1, h2, h3]
  · intro h1 h2 h3 h4
    by_cases hcs : trimChars s.toList = []
    · rw [parse_date_any, if_pos hcs]
    · rw [parse_date_any]
      rw [if_neg hcs, h1, h2, h3, h4]

/-- Witness for C5 at concrete inputs: whitespace-only input parses to NONE
via the empty-after-trim rule, and `" 2026-03-05"` falls through both
day/month/year strategies into the ISO strategy. -/
theorem C5_parse_total_witness :
    parse_date_any "   " = none ∧ parse_date_any " 2026-03-05" = some ⟨2026, 3, 5⟩ :=
  ⟨(C5_parse_total "   ").2.1 (by decide),
   (C5_parse_total " 2026-03-05").2.2.2.2.1 ⟨2026, 3, 5⟩ (by decide) (by decide) (by decide)⟩

/-- C6: the urgency classifier is monotone on non-negative day-counts
(never a less urgent band for the smaller count), its thresholds
`30 < 60 < 180` are strictly ascending, inclusive on the upper bound, and
evaluated ascending with first match winning; NONE maps to the no-data
band, negative counts to the expired band. -/
theorem C6_classifier_monotone :
    (∀ a b : Int, 0 ≤ a → a < b →
      bandRank (risco_categoria (some a)) ≤ bandRank (risco_categoria (some b))) ∧
    risco_categoria none = "SEM DATA" ∧
    (∀ d : Int, d < 0 → risco_categoria (some d) = "VENCIDO") ∧
    risco_categoria (some 30) = "CRÍTICO (≤30d)" ∧
    risco_categoria (some 31) = "EXECUÇÃO (≤60d)" ∧
    risco_categoria (some 60) = "EXECUÇÃO (≤60d)" ∧
    risco_categoria (some 61) = "PREPARAÇÃO (≤180d)" ∧
    risco_categoria (some 180) = "PREPARAÇÃO (≤180d)" ∧
    risco_categoria (some 181) = "OK (>180d)" ∧
    ((30 : Int) < 60 ∧ (60 : Int) < 180) := by
  refine ⟨?_, by decide, ?_, by decide, by decide, by decide, by decide, by decide,
    by decide, by decide, by decide⟩
  · intro a b ha hab
    simp only [risco_categoria]
    split_ifs <;> first | (exfalso; omega) | decide
  · intro d hd
    simp only [risco_categoria]
    rw [if_pos hd]

/-- Witness for C6 at concrete day-counts 10 and 40. -/
theorem C6_classifier_monotone_witness :
    bandRank (risco_categoria (some 10)) ≤ bandRank (risco_categoria (some 40)) ∧
    risco_categoria (some (-1)) = "VENCIDO" :=
  ⟨C6_classifier_monotone.1 10 40 (by decide) (by decide),
   C6_classifier_monotone.2.2.1 (-1) (by decide)⟩

/-- C9: the back-fill touches no field other than `publicacao_doe`, leaves
the record unchanged whenever the canonical field is non-blank (or the
legacy field is blank), and copies the (trimmed) legacy extract number into
the canonical field exactly when the canonical field is blank and the
legacy field is not. -/
theorem C9_backfill_frame (r : Record) :
    (∀ k, k ≠ "publicacao_doe" → getVal (ensure_publicacao_doe r) k = getVal r k) ∧
    (norm ((getVal r "publicacao_doe").getD "") ≠ "" → ensure_publicacao_doe r = r) ∧
    (norm ((getVal r "numero_extrato_publicado").getD "") = "" → ensure_publicacao_doe r = r) ∧
    (norm ((getVal r "publicacao_doe").getD "") = "" →
      norm ((getVal r "numero_extrato_publicado").getD "") ≠ "" →
      getVal (ensure_publicacao_doe r) "publicacao_doe" =
        some (norm ((getVal r "numero_extrato_publicado").getD ""))) := by
  refine ⟨fun k hk => getVal_ensure_ne r k hk, ?_, ?_, ?_⟩
  · intro h
    simp only [ensure_publicacao_doe]
    rw [if_neg (fun hc => h hc.1)]
  · intro h
    simp only [ensure_publicacao_doe]
    rw [if_neg (fun hc => hc.2 h)]
  · intro h1 h2
    simp only [ensure_publicacao_doe]
    rw [if_pos ⟨h1, h2⟩, getVal_setVal_same]

/-- Witness for C9 on a concrete record: the blank canonical field is
back-filled with the trimmed legacy value and an unrelated field is
untouched. -/
theorem C9_backfill_frame_witness :
    getVal (ensure_publicacao_doe recPub) "publicacao_doe" = some "DOE 123" ∧
    getVal (ensure_publicacao_doe recPub) "x" = getVal recPub "x" :=
  ⟨((C9_backfill_frame recPub).2.2.2 (by decide) (by decide)).trans (by decide),
   (C9_backfill_frame recPub).1 "x" (by decide)⟩

/-- C10: the completed count tallies every input record satisfying
`is_concluido` — archived ones included, since the counter is bumped before
the archived `continue` — so a record that is both completed and archived
lands in both counts, and the completed count can exceed the surviving
(panel) count. -/
theorem C10_concluidos_counts_archived :
    (∀ (today : PyDate) (rows : List Record),
      (runMain today rows).resumo.concluidos = rows.countP (fun r => is_concluido r)) ∧
    is_concluido recBoth = true ∧
    is_arquivado recBoth = true ∧
    (runMain todayRef [recBoth]).resumo.concluidos = 1 ∧
    (runMain todayRef [recBoth]).resumo.ignorados_arquivados = 1 ∧
    (runMain todayRef [recBoth]).resumo.total_base_painel = 0 := by
  refine ⟨?_, by decide, by decide, by decide, by decide, by decide⟩
  intro today rows
  rw [runMain_concluidos, runPipeline, foldl_countConcluidos]
  simp

/-- C1: the run summary never carries the most-urgent record: the dict
built at monitor_act.py lines 235-254 has no `menor_prazo_dias` /
`menor_prazo_identificacao` keys — even on a run whose (single, surviving)
record has a perfectly resolvable date 30 days out — although both e-mail
scripts read exactly those keys from it. -/
theorem C1_summary_missing_most_urgent :
    ("menor_prazo_dias" ∉ resumoKeys) ∧
    ("menor_prazo_identificacao" ∉ resumoKeys) ∧
    (runMain todayRef [recA]).resumo.total_base_painel = 1 ∧
    getVal (List.getD (runMain todayRef [recA]).prioridades 0 []) "dias_para_vencer" =
      some "30" :=
  ⟨by decide, by decide, by decide, by decide⟩

/-- C2 counterexample: an archived record with a perfectly resolvable end
date comes out of the per-record augmentation with *no* days-remaining,
urgency-category or alert fields — the archived branch skips them, so the
claim "every record, including archived ones, receives all derived fields"
is false on this input. -/
theorem C2_archived_skips_derived_cex :
    is_arquivado recArch = true ∧
    (parse_date_any ((getVal recArch "vigencia_termino").getD "")).isSome = true ∧
    getVal (augmentRecord todayRef recArch) "dias_para_vencer" = none ∧
    getVal (augmentRecord todayRef recArch) "categoria_risco" = none ∧
    getVal (augmentRecord todayRef recArch) "alerta_30" = none :=
  ⟨by decide, by decide, by decide, by decide, by decide⟩

/-- C2 (amended): every record — archived or not — receives the
publication-reference back-fill and the normalized execution-status label,
but the remaining derived fields (days-remaining, urgency category, alert
flags) are computed only for non-archived records: the archived branch
stops augmenting after the status label and touches nothing else, while
surviving records get every derived field. -/
theorem C2_archived_partial_augmentation (today : PyDate) (st : RunState) (r0 : Record) :
    (stepRow today st r0).outRows = st.outRows ++ [augmentRecord today r0] ∧
    getVal (augmentRecord today r0) "status_execucao_padrao" =
      some (if is_concluido (ensure_publicacao_doe r0) then "CONCLUÍDO" else "EM ANDAMENTO") ∧
    (is_arquivado (stage12 r0) = true →
      ∀ k, k ≠ "publicacao_doe" → k ≠ "status_execucao_padrao" →
        getVal (augmentRecord today r0) k = getVal r0 k) ∧
    (is_arquivado (stage12 r0) = false →
      (getVal (augmentRecord today r0) "dias_para_vencer").isSome = true ∧
      (getVal (augmentRecord today r0) "categoria_risco").isSome = true ∧
      (getVal (augmentRecord today r0) "alerta_30").isSome = true ∧
      (getVal (augmentRecord today r0) "alerta_60").isSome = true ∧
      (getVal (augmentRecord today r0) "alerta_180").isSome = true) := by
  have hstat : getVal (stage12 r0) "status_execucao_padrao" =
      some (if is_concluido (ensure_publicacao_doe r0) then "CONCLUÍDO" else "EM ANDAMENTO") := by
    simp only [stage12]
    rw [getVal_setVal_same]
  refine ⟨stepRow_outRows today st r0, ?_, ?_, ?_⟩
  · simp only [augmentRecord]
    by_cases h : is_arquivado (stage12 r0) = true
    · rw [if_pos h]; exact hstat
    · rw [if_neg h]
      rw [getVal_augmentSurvivor_ne _ _ _ (by decide) (by decide) (by decide) (by decide)
        (by decide)]
      exact hstat
  · intro harq k h1 h2
    simp only [augmentRecord]
    rw [if_pos harq]
    exact getVal_stage12_ne r0 k h1 h2
  · intro harq
    simp only [augmentRecord]
    rw [if_neg (by simp [harq])]
    obtain ⟨f1, f2, f3, f4, f5⟩ := augmentSurvivor_fields today (stage12 r0)
    exact ⟨by rw [f1]; rfl, by rw [f2]; rfl, by rw [f3]; rfl, by rw [f4]; rfl, by rw [f5]; rfl⟩

/-- Witness for C2 (amended) on both an archived and a surviving record. -/
theorem C2_archived_partial_augmentation_witness :
    is_arquivado (stage12 recArch) = true ∧
    getVal (augmentRecord todayRef recArch) "vigencia_termino" =
      getVal recArch "vigencia_termino" ∧
    (stepRow todayRef {} recArch).outRows = [augmentRecord todayRef recArch] ∧
    is_arquivado (stage12 recA) = false ∧
    (getVal (augmentRecord todayRef recA) "dias_para_vencer").isSome = true := by
  refine ⟨by decide,
    (C2_archived_partial_augmentation todayRef {} recArch).2.2.1 (by decide)
      "vigencia_termino" (by decide) (by decide), ?_, by decide,
    ((C2_archived_partial_augmentation todayRef {} recA).2.2.2 (by decide)).1⟩
  have h := (C2_archived_partial_augmentation todayRef {} recArch).1
  simpa using h

theorem sort_key_fst_none (r : Record)
    (h : getVal r "dias_para_vencer" = some (diasField none)) :
    (sort_key r).1 = 10 ^ 9 := by
  rw [sort_key_fst r none h]

theorem sort_key_fst_some (r : Record) (d : Int)
    (h : getVal r "dias_para_vencer" = some (diasField (some d))) :
    (sort_key r).1 = d := by
  rw [sort_key_fst r (some d) h]

/-- C3: no record satisfying `is_arquivado` ever appears in the priority
queue or in any alert queue, and the summary's archived count is exactly
the number of input records satisfying `is_arquivado`. -/
theorem C3_archived_excluded (today : PyDate) (rows : List Record) :
    (∀ r, (r ∈ (runMain today rows).prioridades ∨ r ∈ (runMain today rows).alertas30 ∨
        r ∈ (runMain today rows).alertas60 ∨ r ∈ (runMain today rows).alertas180) →
      is_arquivado r = false) ∧
    (runMain today rows).resumo.ignorados_arquivados =
      rows.countP (fun r => is_arquivado r) := by
  obtain ⟨hA, h30p, h60p, h180p, _, _, _⟩ := runPipeline_QInv today rows
  constructor
  · intro r hr
    have hrp : r ∈ (runPipeline today rows).prioridades := by
      rcases hr with h | h | h | h
      · rw [runMain_prioridades] at h; exact mem_pySortK.mp h
      · rw [runMain_alertas30] at h; exact h30p r (mem_pySortK.mp h)
      · rw [runMain_alertas60] at h; exact h60p r (mem_pySortK.mp h)
      · rw [runMain_alertas180] at h; exact h180p r (mem_pySortK.mp h)
    obtain ⟨dias, _, _, _, _, _, harq, _⟩ := hA r hrp
    exact harq
  · rw [runMain_arquivados, runPipeline, foldl_countArquivados]
    simp

/-- Witness for C3: on a run with one surviving and one archived record,
the head of the priority queue is not archived and the archived count is
1. -/
theorem C3_archived_excluded_witness :
    is_arquivado (List.getD (runMain todayRef [recA, recArch]).prioridades 0 []) = false ∧
    (runMain todayRef [recA, recArch]).resumo.ignorados_arquivados = 1 :=
  ⟨(C3_archived_excluded todayRef [recA, recArch]).1 _ (Or.inl (by decide)),
   ((C3_archived_excluded todayRef [recA, recArch]).2).trans (by decide)⟩

/-- C7: a surviving record sits in the `N`-day alert queue exactly when its
days-remaining is present and lies in `[0, N]`, for each `N ∈ {30, 60, 180}`;
consequently membership in the 30-day queue forces membership in the other
two (queues overlap), and dateless or expired records are in no alert
queue. -/
theorem C7_alert_queue_membership (today : PyDate) (rows : List Record) (r : Record)
    (hr : r ∈ (runMain today rows).prioridades) :
    ((r ∈ (runMain today rows).alertas30 ↔ ∃ d, recDias r = some d ∧ 0 ≤ d ∧ d ≤ 30) ∧
     (r ∈ (runMain today rows).alertas60 ↔ ∃ d, recDias r = some d ∧ 0 ≤ d ∧ d ≤ 60) ∧
     (r ∈ (runMain today rows).alertas180 ↔ ∃ d, recDias r = some d ∧ 0 ≤ d ∧ d ≤ 180)) ∧
    (r ∈ (runMain today rows).alertas30 →
      r ∈ (runMain today rows).alertas60 ∧ r ∈ (runMain today rows).alertas180) := by
  obtain ⟨hA, h30p, h60p, h180p, h30, h60, h180⟩ := runPipeline_QInv today rows
  rw [runMain_prioridades] at hr
  have hrp := mem_pySortK.mp hr
  obtain ⟨dias, f1, f2, f3, f4, f5, harq, hbd⟩ := hA r hrp
  have hd : recDias r = dias := recDias_diasField r dias f1
  have key : ∀ (kf : String) (n : Int) (queue : List Record),
      (∀ x ∈ (runPipeline today rows).prioridades, (x ∈ queue ↔ getVal x kf = some "SIM")) →
      getVal r kf = some (alertaFlag dias n) →
      (r ∈ pySortK queue ↔ ∃ d, recDias r = some d ∧ 0 ≤ d ∧ d ≤ n) := by
    intro kf n queue hq hf
    rw [mem_pySortK, hq r hrp, hf, hd]
    constructor
    · intro hsome
      exact (alertaFlag_SIM_iff dias n).mp (Option.some_inj.mp hsome)
    · intro hex
      exact congrArg some ((alertaFlag_SIM_iff dias n).mpr hex)
  have k30 := key "alerta_30" 30 (runPipeline today rows).alertas30 h30 f3
  have k60 := key "alerta_60" 60 (runPipeline today rows).alertas60 h60 f4
  have k180 := key "alerta_180" 180 (runPipeline today rows).alertas180 h180 f5
  refine ⟨⟨?_, ?_, ?_⟩, ?_⟩
  · rw [runMain_alertas30]; exact k30
  · rw [runMain_alertas60]; exact k60
  · rw [runMain_alertas180]; exact k180
  · intro h30mem
    rw [runMain_alertas30] at h30mem
    rw [runMain_alertas60, runMain_alertas180]
    obtain ⟨d, hdd, hd0, hd30⟩ := k30.mp h30mem
    exact ⟨k60.mpr ⟨d, hdd, hd0, by omega⟩, k180.mpr ⟨d, hdd, hd0, by omega⟩⟩

/-- Witness for C7: the 40-days-out record is simultaneously in the ≤60 and
≤180 alert queues — the overlap the spec describes. -/
theorem C7_alert_queue_membership_witness :
    List.getD (runMain todayRef [rec40]).prioridades 0 [] ∈
      (runMain todayRef [rec40]).alertas60 ∧
    List.getD (runMain todayRef [rec40]).prioridades 0 [] ∈
      (runMain todayRef [rec40]).alertas180 :=
  ⟨((C7_alert_queue_membership todayRef [rec40] _ (by decide)).1.2.1).mpr
     ⟨40, by decide, by decide, by decide⟩,
   ((C7_alert_queue_membership todayRef [rec40] _ (by decide)).1.2.2).mpr
     ⟨40, by decide, by decide, by decide⟩⟩

/-- C8: every output queue is pairwise ordered by the composite key
`(days-remaining with the 10**9 sentinel when absent, identification)`;
in particular a record with no resolvable date never precedes one with a
date, and records with equal day-keys are ordered with the
lexicographically smaller identification first. -/
theorem C8_queues_sorted (today : PyDate) (rows : List Record)
    (htoday : validDate today = true) :
    ∀ q ∈ [(runMain today rows).prioridades, (runMain today rows).alertas30,
        (runMain today rows).alertas60, (runMain today rows).alertas180],
      q.Pairwise (fun a b =>
        keyLeB (sort_key a) (sort_key b) = true ∧
        ((getVal a "dias_para_vencer").getD "" = "" →
          (getVal b "dias_para_vencer").getD "" = "") ∧
        ((sort_key a).1 = (sort_key b).1 →
          clLeB (sort_key a).2.toList (sort_key b).2.toList = true)) := by
  intro q hq
  obtain ⟨hA, h30p, h60p, h180p, _, _, _⟩ := runPipeline_QInv today rows
  have hparts : ∃ base : List Record, q = pySortK base ∧
      ∀ x ∈ base, x ∈ (runPipeline today rows).prioridades := by
    simp only [List.mem_cons, List.not_mem_nil, or_false] at hq
    rcases hq with rfl | rfl | rfl | rfl
    · exact ⟨(runPipeline today rows).prioridades, runMain_prioridades today rows,
        fun x hx => hx⟩
    · exact ⟨(runPipeline today rows).alertas30, runMain_alertas30 today rows, h30p⟩
    · exact ⟨(runPipeline today rows).alertas60, runMain_alertas60 today rows, h60p⟩
    · exact ⟨(runPipeline today rows).alertas180, runMain_alertas180 today rows, h180p⟩
  obtain ⟨base, rfl, hbase⟩ := hparts
  have hmem : ∀ x ∈ pySortK base, Augmented today x :=
    fun x hx => hA x (hbase x (mem_pySortK.mp hx))
  refine List.Pairwise.imp_of_mem ?_ (pySortK_sorted base)
  intro a b ha hb hle
  have hleB : keyLeB (sort_key a) (sort_key b) = true := hle
  obtain ⟨da, fa1, _, _, _, _, _, fba⟩ := hmem a ha
  obtain ⟨db, fb1, _, _, _, _, _, fbb⟩ := hmem b hb
  refine ⟨hleB, ?_, ?_⟩
  · intro hae
    rw [fa1, Option.getD_some] at hae
    have hda : da = none := (diasField_empty_iff da).mp hae
    subst hda
    rw [fb1, Option.getD_some, diasField_empty_iff]
    cases db with
    | none => rfl
    | some d =>
      exfalso
      have hka := sort_key_fst_none a fa1
      have hkb := sort_key_fst_some b d fb1
      have hbound := fbb htoday d rfl
      have hc1 : ¬(sort_key a).1 < (sort_key b).1 := by rw [hka, hkb]; omega
      have hc2 : (sort_key b).1 < (sort_key a).1 := by rw [hka, hkb]; omega
      rw [keyLeB, if_neg hc1, if_pos hc2] at hleB
      exact absurd hleB (by decide)
  · intro heq
    rw [keyLeB, if_neg (by omega), if_neg (by omega)] at hleB
    exact hleB

/-- Witness for C8 on a concrete three-record run (mixed dateless and dated
records) for the priority queue. -/
theorem C8_queues_sorted_witness :
    validDate todayRef = true ∧
    List.Pairwise (fun a b =>
      keyLeB (sort_key a) (sort_key b) = true ∧
      ((getVal a "dias_para_vencer").getD "" = "" →
        (getVal b "dias_para_vencer").getD "" = "") ∧
      ((sort_key a).1 = (sort_key b).1 →
        clLeB (sort_key a).2.toList (sort_key b).2.toList = true))
      (runMain todayRef [recND, rec40, recA]).prioridades :=
  ⟨by decide, C8_queues_sorted todayRef [recND, rec40, recA] (by decide) _
    (List.mem_cons_self _ _)⟩

end ACT
